import Mathlib

/-!
Verification model of the chat persistence layer and inference gateway of the
reporting-agent application.  Definitions mirror the functions of
`pages/2_Chatbot.py` and `auth.py`; the relational tables are modelled as lists
of rows, the HTTP layer as an explicit transport argument, and the JSON body
parsing as an executable parser faithful to strict JSON decoding.
-/

/-! ## JSON values and a strict JSON parser (model of `json.loads`) -/

inductive JVal where
  | jnull
  | jbool (b : Bool)
  | jnum (raw : String)
  | jstr (s : String)
  | jarr (items : List JVal)
  | jobj (fields : List (String × JVal))

/-- JSON structural whitespace. -/
def jsonWs : Char → Bool
  | ' ' | '\t' | '\n' | '\r' => true
  | _ => false

def skipWs (cs : List Char) : List Char :=
  cs.dropWhile jsonWs

/-- Value of one hexadecimal digit, on the character code. -/
def hexVal (c : Char) : Option Nat :=
  let n := c.toNat
  if 48 ≤ n && n ≤ 57 then some (n - 48)
  else if 97 ≤ n && n ≤ 102 then some (n - 87)
  else if 65 ≤ n && n ≤ 70 then some (n - 55)
  else none

/-- Parse the body of a JSON string literal, after the opening quote.
Accumulates characters in reverse in `acc`. -/
def parseStrBody (acc : List Char) : List Char → Option (String × List Char)
  | [] => none
  | c :: rest =>
    if c == '\"' then some (acc.reverse.asString, rest)
    else if c == '\\' then
      match rest with
      | [] => none
      | e :: rest2 =>
        if e == '\"' then parseStrBody ('\"' :: acc) rest2
        else if e == '\\' then parseStrBody ('\\' :: acc) rest2
        else if e == '/' then parseStrBody ('/' :: acc) rest2
        else if e == 'b' then parseStrBody ('\x08' :: acc) rest2
        else if e == 'f' then parseStrBody ('\x0c' :: acc) rest2
        else if e == 'n' then parseStrBody ('\n' :: acc) rest2
        else if e == 'r' then parseStrBody ('\r' :: acc) rest2
        else if e == 't' then parseStrBody ('\t' :: acc) rest2
        else if e == 'u' then
          match rest2 with
          | h1 :: h2 :: h3 :: h4 :: rest3 =>
            match hexVal h1, hexVal h2, hexVal h3, hexVal h4 with
            | some a, some b, some c3, some d =>
              parseStrBody (Char.ofNat (a * 4096 + b * 256 + c3 * 16 + d) :: acc) rest3
            | _, _, _, _ => none
          | _ => none
        else none
    else if c.toNat < 32 then none
    else parseStrBody (c :: acc) rest

def takeDigits (cs : List Char) : List Char × List Char :=
  (cs.takeWhile Char.isDigit, cs.dropWhile Char.isDigit)

/-- Parse a JSON number token, returning its raw lexeme. -/
def parseNum (cs : List Char) : Option (String × List Char) :=
  let (sign, cs1) := match cs with
    | '-' :: r => ([' '].tail ++ ['-'], r)
    | _ => ([], cs)
  let (intPart, cs2) := takeDigits cs1
  if intPart.isEmpty then none
  else if intPart.length > 1 && intPart.head? == some '0' then none
  else
    let fracRes : Option (List Char × List Char) :=
      match cs2 with
      | '.' :: r =>
        let (ds, r2) := takeDigits r
        if ds.isEmpty then none else some ('.' :: ds, r2)
      | _ => some ([], cs2)
    match fracRes with
    | none => none
    | some (fracPart, cs3) =>
      let expRes : Option (List Char × List Char) :=
        match cs3 with
        | 'e' :: r =>
          let (s, r1) := match r with
            | '+' :: r2 => (['e', '+'], r2)
            | '-' :: r2 => (['e', '-'], r2)
            | _ => (['e'], r)
          let (ds, r2) := takeDigits r1
          if ds.isEmpty then none else some (s ++ ds, r2)
        | 'E' :: r =>
          let (s, r1) := match r with
            | '+' :: r2 => (['E', '+'], r2)
            | '-' :: r2 => (['E', '-'], r2)
            | _ => (['E'], r)
          let (ds, r2) := takeDigits r1
          if ds.isEmpty then none else some (s ++ ds, r2)
        | _ => some ([], cs3)
      match expRes with
      | none => none
      | some (expPart, cs4) =>
        some ((sign ++ intPart ++ fracPart ++ expPart).asString, cs4)

mutual

def parseVal (fuel : Nat) (cs : List Char) : Option (JVal × List Char) :=
  match fuel with
  | 0 => none
  | f + 1 =>
    match skipWs cs with
    | [] => none
    | c :: rest =>
      if c == '\x7b' then
        match skipWs rest with
        | '\x7d' :: r => some (JVal.jobj [], r)
        | _ => parseObjMembers f rest []
      else if c == '[' then
        match skipWs rest with
        | ']' :: r => some (JVal.jarr [], r)
        | _ => parseArrElems f rest []
      else if c == '\"' then
        (parseStrBody [] rest).map fun p => (JVal.jstr p.1, p.2)
      else if c == 't' then
        match rest with
        | 'r' :: 'u' :: 'e' :: r => some (JVal.jbool true, r)
        | _ => none
      else if c == 'f' then
        match rest with
        | 'a' :: 'l' :: 's' :: 'e' :: r => some (JVal.jbool false, r)
        | _ => none
      else if c == 'n' then
        match rest with
        | 'u' :: 'l' :: 'l' :: r => some (JVal.jnull, r)
        | _ => none
      else
        (parseNum (c :: rest)).map fun p => (JVal.jnum p.1, p.2)

def parseArrElems (fuel : Nat) (cs : List Char) (acc : List JVal) :
    Option (JVal × List Char) :=
  match fuel with
  | 0 => none
  | f + 1 =>
    match parseVal f cs with
    | none => none
    | some (v, rest) =>
      match skipWs rest with
      | ',' :: r2 => parseArrElems f r2 (acc ++ [v])
      | ']' :: r2 => some (JVal.jarr (acc ++ [v]), r2)
      | _ => none

def parseObjMembers (fuel : Nat) (cs : List Char) (acc : List (String × JVal)) :
    Option (JVal × List Char) :=
  match fuel with
  | 0 => none
  | f + 1 =>
    match skipWs cs with
    | '\"' :: r =>
      match parseStrBody [] r with
      | none => none
      | some (k, r2) =>
        match skipWs r2 with
        | ':' :: r3 =>
          match parseVal f r3 with
          | none => none
          | some (v, r4) =>
            match skipWs r4 with
            | ',' :: r5 => parseObjMembers f r5 (acc ++ [(k, v)])
            | '\x7d' :: r5 => some (JVal.jobj (acc ++ [(k, v)]), r5)
            | _ => none
        | _ => none
    | _ => none

end

/-- Model of Python `json.loads`: parse a complete JSON document, rejecting
trailing data. -/
def json_loads (s : String) : Option JVal :=
  match parseVal (2 * s.length + 2) s.data with
  | some (v, rest) => if (skipWs rest).isEmpty then some v else none
  | none => none

/-! ## Python string helpers -/

/-- Characters stripped by Python `str.strip()`. -/
def pyStripChar : Char → Bool
  | ' ' | '\t' | '\n' | '\r' | '\x0b' | '\x0c' => true
  | _ => false

def pyStrip (s : String) : String :=
  ((s.data.dropWhile pyStripChar).reverse.dropWhile pyStripChar).reverse.asString

def pySplitlinesAux : List Char → List Char → List String
  | [], acc => if acc.isEmpty then [] else [acc.reverse.asString]
  | '\r' :: '\n' :: rest, acc => acc.reverse.asString :: pySplitlinesAux rest []
  | '\n' :: rest, acc => acc.reverse.asString :: pySplitlinesAux rest []
  | '\r' :: rest, acc => acc.reverse.asString :: pySplitlinesAux rest []
  | c :: rest, acc => pySplitlinesAux rest (c :: acc)

/-- Model of Python `str.splitlines()` for newline and carriage-return breaks. -/
def pySplitlines (s : String) : List String := pySplitlinesAux s.data []

/-! ## Response-body collection (model of the parsing in `chat_with_bot`) -/

/-- Key lookup in a parsed JSON object; a duplicated key keeps the last
occurrence, as a Python `dict` built by repeated assignment does. -/
def jlookup (fields : List (String × JVal)) (k : String) : Option JVal :=
  fields.reverse.lookup k

/-- Model of `d.get(key, dflt)` on a parsed JSON object. -/
def objGetD (fields : List (String × JVal)) (k : String) (dflt : JVal) : JVal :=
  (jlookup fields k).getD dflt

/-- Iterating a Python value: lists yield items, strings yield characters,
dicts yield keys; other values raise `TypeError`. -/
def pyIter : JVal → Except String (List JVal)
  | JVal.jarr xs => Except.ok xs
  | JVal.jstr s => Except.ok (s.data.map fun c => JVal.jstr (String.singleton c))
  | JVal.jobj fs => Except.ok (fs.map fun p => JVal.jstr p.1)
  | _ => Except.error ("TypeError")

/-- Walk a `content` list collecting `text` of entries whose `type` is
`output_text`; a non-dict entry raises (error carries the partial result). -/
def collectContents (acc : List JVal) : List JVal → Except (List JVal × String) (List JVal)
  | [] => Except.ok acc
  | c :: rest =>
    match c with
    | JVal.jobj cfs =>
      let acc2 :=
        match jlookup cfs ("type") with
        | some (JVal.jstr t) =>
          if t == "output_text" then acc ++ [objGetD cfs ("text") (JVal.jstr (""))]
          else acc
        | _ => acc
      collectContents acc2 rest
    | _ => Except.error (acc, "AttributeError")

/-- Model of the shared shape `for content in item.get("content", []): ...`
used for both an NDJSON `item` and a single-document `output` entry. -/
def collectFromItem (acc : List JVal) (item : JVal) : Except (List JVal × String) (List JVal) :=
  match item with
  | JVal.jobj ifs =>
    match pyIter (objGetD ifs ("content") (JVal.jarr [])) with
    | Except.ok cs => collectContents acc cs
    | Except.error e => Except.error (acc, e)
  | _ => Except.error (acc, "AttributeError")

/-- Processing of one NDJSON line: strip, skip if blank, skip if it fails to
parse as JSON, and otherwise collect from lines tagged
`response.output_item.done`. -/
def processLine (acc : List JVal) (line : String) : Except (List JVal × String) (List JVal) :=
  let l := pyStrip line
  if l.isEmpty then Except.ok acc
  else
    match json_loads l with
    | none => Except.ok acc
    | some data =>
      match data with
      | JVal.jobj fs =>
        match jlookup fs ("type") with
        | some (JVal.jstr t) =>
          if t == "response.output_item.done" then
            collectFromItem acc (objGetD fs ("item") (JVal.jobj []))
          else Except.ok acc
        | _ => Except.ok acc
      | _ => Except.error (acc, "AttributeError")

def processLines : List String → List JVal → Except (List JVal × String) (List JVal)
  | [], acc => Except.ok acc
  | l :: rest, acc =>
    match processLine acc l with
    | Except.ok acc2 => processLines rest acc2
    | Except.error e => Except.error e

def collectMsgs (acc : List JVal) : List JVal → Except (List JVal × String) (List JVal)
  | [] => Except.ok acc
  | m :: rest =>
    match collectFromItem acc m with
    | Except.ok acc2 => collectMsgs acc2 rest
    | Except.error e => Except.error e

/-- Single-document branch: on any exception the partial list of collected
texts is kept (the source swallows the exception with a bare `pass`). -/
def singleDocTexts (raw : String) : List JVal :=
  match json_loads raw with
  | none => []
  | some data =>
    match data with
    | JVal.jobj fs =>
      if fs.any (fun p => p.1 == "output") then
        match pyIter (objGetD fs ("output") JVal.jnull) with
        | Except.ok ms =>
          match collectMsgs [] ms with
          | Except.ok ts => ts
          | Except.error (part, _) => part
        | Except.error _ => []
      else []
    | _ => []

def pyExcMsg (e : String) : String := "❌ Error: " ++ e

def sepJoin : String := "\n\n---\n\n"

def noResponseMsg : String := "⚠️ No response received from chatbot."

def asStrings : List JVal → Option (List String)
  | [] => some []
  | JVal.jstr s :: rest => (asStrings rest).map (s :: ·)
  | _ :: _ => none

/-- Final step of `chat_with_bot`: join the collected texts with the visible
separator, or return the sentinel when none were collected; joining a
non-string raises `TypeError`, caught by the outermost handler. -/
def finishTexts (ts : List JVal) : String :=
  if ts.isEmpty then noResponseMsg
  else
    match asStrings ts with
    | some ss => String.intercalate sepJoin ss
    | none => pyExcMsg ("TypeError")

/-- Model of the Python containment test for a single character. -/
def containsNewline (s : String) : Bool := s.data.contains '\n'

/-- Body handling of a successful (HTTP 200) response: strip, then NDJSON
mode if the trimmed body contains a newline, else single-document mode. -/
def parse_response_body (body : String) : String :=
  let raw := pyStrip body
  if containsNewline raw then
    match processLines (pySplitlines raw) [] with
    | Except.ok ts => finishTexts ts
    | Except.error (_, e) => pyExcMsg e
  else
    finishTexts (singleDocTexts raw)

/-! ## The gateway call (`chat_with_bot`) -/

structure ChatMsg where
  role : String
  content : String
deriving DecidableEq

structure PayloadMsg where
  status : Option String
  content : String
  role : String
  type : String
deriving DecidableEq

/-- Outcome of the single `requests.post` call. -/
inductive TransportResult where
  | success (statusCode : Nat) (text : String)
  | timeout
  | connectionError
  | otherExc (msg : String)

/-- Python truthiness of an optional configuration string: absent and empty
are both falsy. -/
def truthy : Option String → Bool
  | none => false
  | some s => !s.isEmpty

def buildInputMessages (history : List ChatMsg) : List PayloadMsg :=
  history.map fun m => { status := none, content := m.content, role := m.role, type := "message" }

def notConfiguredMsg : String :=
  "⚠️ Error: Chatbot is not configured. Please contact your administrator."

def timeoutMsg : String := "⏱️ Error: Request timed out. Please try again."

def connectionErrorMsg : String :=
  "🔌 Error: Cannot connect to chatbot service. Please check your connection."

/-- Model of `chat_with_bot`.  The transport is an explicit argument standing
for `requests.post`; the second component counts how many times it was
invoked. -/
def chat_with_bot (token endpoint : Option String) (history : List ChatMsg)
    (transport : List PayloadMsg → TransportResult) : String × Nat :=
  if !truthy token || !truthy endpoint then (notConfiguredMsg, 0)
  else
    match transport (buildInputMessages history) with
    | TransportResult.success code text =>
      if code != 200 then ("❌ Error: " ++ toString code ++ " - " ++ text, 1)
      else (parse_response_body text, 1)
    | TransportResult.timeout => (timeoutMsg, 1)
    | TransportResult.connectionError => (connectionErrorMsg, 1)
    | TransportResult.otherExc m => (pyExcMsg m, 1)


/-! ## Conversation store (tables `user_chats` and `user_messages`) -/

structure ChatRow where
  chat_id : String
  user_id : String
  title : String
  created_at : String
  is_current : Nat
  last_accessed : String
deriving DecidableEq

structure MsgRow where
  message_id : Nat
  chat_id : String
  user_id : String
  role : String
  content : String
  created_at : String
deriving DecidableEq

/-- The persistent store: the two chatbot tables plus the next value of the
auto-incrementing `message_id`. -/
structure Store where
  chats : List ChatRow
  msgs : List MsgRow
  nextId : Nat
deriving DecidableEq

def emptyStore : Store := { chats := [], msgs := [], nextId := 1 }

/-- Effect on one row of `UPDATE user_chats SET is_current = 0 WHERE user_id = ?`. -/
def unsetRow (u : String) (r : ChatRow) : ChatRow :=
  if r.user_id == u then { r with is_current := 0 } else r

/-- Model of `UPDATE user_chats SET is_current = 0 WHERE user_id = ?`. -/
def unsetCurrentFor (u : String) (rows : List ChatRow) : List ChatRow :=
  rows.map (unsetRow u)

/-- Effect on one row of the update that marks the chosen chat current. -/
def markRow (u cid now : String) (r : ChatRow) : ChatRow :=
  if r.chat_id == cid && r.user_id == u then
    { r with is_current := 1, last_accessed := now }
  else r

/-- Model of `save_chat_to_db`: optionally unset the other current chats of
the user, then `INSERT OR REPLACE` on the primary key `chat_id`. -/
def save_chat_to_db (s : Store) (u cid title createdAt now : String) (isCurrent : Bool) : Store :=
  let rows := if isCurrent then unsetCurrentFor u s.chats else s.chats
  let rows2 := rows.filter fun r => r.chat_id != cid
  { s with chats := rows2 ++
      [{ chat_id := cid, user_id := u, title := title, created_at := createdAt,
         is_current := if isCurrent then 1 else 0, last_accessed := now }] }

/-- Model of `save_message_to_db`: insert a message row with the next
auto-increment id and touch the last-accessed stamp of the chat. -/
def save_message_to_db (s : Store) (u cid role content now : String) : Store :=
  { chats := s.chats.map fun r =>
      if r.chat_id == cid && r.user_id == u then { r with last_accessed := now } else r,
    msgs := s.msgs ++
      [{ message_id := s.nextId, chat_id := cid, user_id := u,
         role := role, content := content, created_at := now }],
    nextId := s.nextId + 1 }

/-- Byte-wise comparison of character lists, as SQLite compares TEXT. -/
def charListLE : List Char → List Char → Bool
  | [], _ => true
  | _ :: _, [] => false
  | a :: as, b :: bs =>
    if a.toNat < b.toNat then true
    else if b.toNat < a.toNat then false
    else charListLE as bs

def strLE (a b : String) : Bool := charListLE a.data b.data

/-- Comparison realising `ORDER BY created_at DESC` on the timestamp text. -/
def chatDescR (a b : ChatRow) : Prop := strLE b.created_at a.created_at = true

instance : DecidableRel chatDescR :=
  fun a b => instDecidableEqBool (strLE b.created_at a.created_at) true

/-- Last row of the iteration marked current wins, as in the source loop. -/
def currentFromRows (rows : List ChatRow) : Option String :=
  rows.foldl (fun acc r => if r.is_current != 0 then some r.chat_id else acc) none

/-- Model of `load_chats_from_db`: rows of the user ordered by `created_at`
descending, together with the detected current chat id. -/
def load_chats_from_db (s : Store) (u : String) : List ChatRow × Option String :=
  let rows := (s.chats.filter fun r => r.user_id == u).insertionSort chatDescR
  (rows, currentFromRows rows)

/-- Comparison realising `ORDER BY message_id ASC`. -/
def msgIdR (a b : MsgRow) : Prop := a.message_id ≤ b.message_id

instance : DecidableRel msgIdR := fun a b => Nat.decLe a.message_id b.message_id

/-- Model of `load_messages_for_chat`: the (role, content) pairs of the chat,
ordered by the auto-incrementing message id. -/
def load_messages_for_chat (s : Store) (u cid : String) : List (String × String) :=
  ((s.msgs.filter fun m => m.chat_id == cid && m.user_id == u).insertionSort msgIdR).map
    fun m => (m.role, m.content)

def delete_chat_from_db (s : Store) (u cid : String) : Store :=
  { s with msgs := s.msgs.filter fun m => !(m.chat_id == cid && m.user_id == u),
           chats := s.chats.filter fun r => !(r.chat_id == cid && r.user_id == u) }

def clear_chat_messages_db (s : Store) (u cid : String) : Store :=
  { s with msgs := s.msgs.filter fun m => !(m.chat_id == cid && m.user_id == u) }

def clear_all_data_db (s : Store) (u : String) : Store :=
  { s with msgs := s.msgs.filter fun m => m.user_id != u,
           chats := s.chats.filter fun r => r.user_id != u }

/-- Model of `set_current_chat_db`: unset every current flag of the user,
then set the flag (and last-accessed) on the row of the given chat. -/
def set_current_chat_db (s : Store) (u cid now : String) : Store :=
  { s with chats := (unsetCurrentFor u s.chats).map (markRow u cid now) }

def get_chat_message_count (s : Store) (u cid : String) : Nat :=
  (s.msgs.filter fun m => m.chat_id == cid && m.user_id == u).length

/-- The mutating operations of the conversation store, for quantifying over
arbitrary operation sequences. -/
inductive StoreOp where
  | saveChat (u cid title createdAt now : String) (isCurrent : Bool)
  | saveMsg (u cid role content now : String)
  | setCurrent (u cid now : String)
  | deleteChat (u cid : String)
  | clearMsgs (u cid : String)
  | clearAll (u : String)

def applyOp (s : Store) : StoreOp → Store
  | StoreOp.saveChat u cid t c n b => save_chat_to_db s u cid t c n b
  | StoreOp.saveMsg u cid r c n => save_message_to_db s u cid r c n
  | StoreOp.setCurrent u cid n => set_current_chat_db s u cid n
  | StoreOp.deleteChat u cid => delete_chat_from_db s u cid
  | StoreOp.clearMsgs u cid => clear_chat_messages_db s u cid
  | StoreOp.clearAll u => clear_all_data_db s u

def applyOps (s : Store) (ops : List StoreOp) : Store := ops.foldl applyOp s

/-- An append-only call to `save_message_to_db`, for the round-trip claim. -/
structure AppendOp where
  u : String
  cid : String
  role : String
  content : String
  now : String
deriving DecidableEq

def applyAppends (s : Store) (ops : List AppendOp) : Store :=
  ops.foldl (fun st o => save_message_to_db st o.u o.cid o.role o.content o.now) s

/-! ## Credential store (`auth.py`) -/

structure UserRow where
  user_id : String
  username : String
  password_hash : String
  email : Option String
  created_at : String
  last_login : Option String
deriving DecidableEq

/-- Model of `authenticate_user`.  The hash function is abstract; the result
is the returned triple together with the users table after the call. -/
def authenticate_user (hash : String → String) (db : List UserRow)
    (username password now : String) : (Bool × String × String) × List UserRow :=
  match db.find? (fun r => r.username == username) with
  | none => ((false, "", ""), db)
  | some u =>
    if hash password == u.password_hash then
      ((true, u.user_id, u.username),
       db.map fun r => if r.user_id == u.user_id then { r with last_login := some now } else r)
    else ((false, "", ""), db)

structure SessionRow where
  session_id : String
  user_id : String
  created_at : String
  expires_at : String
deriving DecidableEq

/-- Model of `create_session`: insert a row whose `expires_at` is the same
current-time stamp as `created_at`. -/
def create_session (db : List SessionRow) (uid sid now : String) : List SessionRow × String :=
  (db ++ [{ session_id := sid, user_id := uid, created_at := now, expires_at := now }], sid)

/-- Model of `validate_session`: a pure lookup by session id; `expires_at` is
never consulted. -/
def validate_session (db : List SessionRow) (sid : String) : Bool × String :=
  match db.find? (fun r => r.session_id == sid) with
  | some r => (true, r.user_id)
  | none => (false, "")

/-! ## Conversation manager session state (`2_Chatbot.py` top-level block) -/

structure ChatEntry where
  title : String
  created_at : String
  messages : List (String × String)
deriving DecidableEq

/-- In-memory per-user view: insertion-ordered map from chat id to entry plus
the current chat pointer. -/
structure SessionState where
  chats : List (String × ChatEntry)
  current : Option String
deriving DecidableEq

/-- Model of the first-activation block (lines 269-297 of the source): load
the chats of the user; if none exist create a fresh "New Chat" marked
current; if none is marked current fall back to the first loaded key (the
most recently created chat) and persist that choice. -/
def init_user_session (s : Store) (u newId now : String) : SessionState × Store :=
  let loaded := load_chats_from_db s u
  match loaded.1 with
  | [] =>
    let entry : ChatEntry := { title := "New Chat", created_at := now, messages := [] }
    ({ chats := [(newId, entry)], current := some newId },
     save_chat_to_db s u newId ("New Chat") now now true)
  | r :: rest =>
    let entries := (r :: rest).map fun row =>
      (row.chat_id,
       { title := row.title, created_at := row.created_at,
         messages := load_messages_for_chat s u row.chat_id : ChatEntry })
    match loaded.2 with
    | some c => ({ chats := entries, current := some c }, s)
    | none =>
      ({ chats := entries, current := some r.chat_id },
       set_current_chat_db s u r.chat_id now)

/-- The title derivation inside `update_chat_title`: the first 50 characters
of the first message, with "..." appended when it was truncated. -/
def auto_title (first_message : String) : String :=
  (first_message.toList.take 50).asString ++ (if first_message.length > 50 then "..." else "")

def emptyEntry : ChatEntry := { title := "", created_at := "", messages := [] }

/-- Model of `update_chat_title`: rewrite the in-memory title and persist the
chat row, keeping its current flag. -/
def update_chat_title (sess : SessionState) (s : Store) (u cid first_message now : String) :
    SessionState × Store :=
  let title := auto_title first_message
  let entry := (sess.chats.lookup cid).getD emptyEntry
  ({ sess with chats := sess.chats.map fun p =>
      if p.1 == cid then (p.1, { p.2 with title := title }) else p },
   save_chat_to_db s u cid title entry.created_at now (sess.current == some cid))

/-- Model of the chat-input handler (lines 737-750): auto-title exactly when
the current chat has zero messages, then append and persist the user
message. -/
def handle_chat_input (sess : SessionState) (s : Store) (u prompt now : String) :
    SessionState × Store :=
  let cid := sess.current.getD ("")
  let entry := (sess.chats.lookup cid).getD emptyEntry
  let step1 := if entry.messages.length == 0 then update_chat_title sess s u cid prompt now
               else (sess, s)
  ({ step1.1 with chats := step1.1.chats.map fun p =>
      if p.1 == cid then (p.1, { p.2 with messages := p.2.messages ++ [("user", prompt)] }) else p },
   save_message_to_db step1.2 u cid ("user") prompt now)

def demoChat (cid u created : String) (cur : Nat) : ChatRow :=
  { chat_id := cid, user_id := u, title := "T", created_at := created,
    is_current := cur, last_accessed := created }

/-! ## Auxiliary definitions used by the statements and witnesses -/

/-- The auto-increment and insertion-order invariant of the message table:
ids are below the next id and increase along the list. -/
def MsgsOrdered (s : Store) : Prop :=
  (∀ m ∈ s.msgs, m.message_id < s.nextId) ∧
  s.msgs.Pairwise (fun a b => a.message_id < b.message_id)

/-- An operation upserts the conversation `cid` only on behalf of `u1`. -/
def savesChatOnlyAs (cid u1 : String) : StoreOp → Prop
  | StoreOp.saveChat u c _ _ _ _ => c = cid → u = u1
  | _ => True

/-- NDJSON body with two `response.output_item.done` lines carrying the
output texts "A" and "B". -/
def ndjsonAB : String :=
  "\x7b\"type\": \"response.output_item.done\", \"item\": \x7b\"content\": [\x7b\"type\": \"output_text\", \"text\": \"A\"\x7d]\x7d\x7d\n\x7b\"type\": \"response.output_item.done\", \"item\": \x7b\"content\": [\x7b\"type\": \"output_text\", \"text\": \"B\"\x7d]\x7d\x7d"

/-- A pretty-printed single JSON document whose trimmed text contains
newlines; its `output` array carries one output text "hello". -/
def prettyDocBody : String :=
  "\x7b\n  \"output\": [\n    \x7b\n      \"content\": [\n        \x7b\"type\": \"output_text\", \"text\": \"hello\"\x7d\n      ]\n    \x7d\n  ]\n\x7d"

def demoMsg (i : Nat) (cid u role content now : String) : MsgRow :=
  { message_id := i, chat_id := cid, user_id := u, role := role,
    content := content, created_at := now }

/-- A store with two conversations of the same user, both wrongly flagged
current, used to exercise the set-current invariant from a dirty state. -/
def demoStoreTwoCurrent : Store :=
  { chats := [demoChat ("c1") ("u") ("2024-01-01") 1, demoChat ("c2") ("u") ("2024-02-01") 1],
    msgs := [], nextId := 1 }

/-- A store with two conversations of one user, none flagged current. -/
def demoStoreNoCurrent : Store :=
  { chats := [demoChat ("c1") ("u") ("2024-01-01") 0, demoChat ("c2") ("u") ("2024-02-01") 0],
    msgs := [], nextId := 1 }

def demoUserRow : UserRow :=
  { user_id := "u1", username := "alice", password_hash := "secret1",
    email := none, created_at := "2024-01-01", last_login := none }

def demoSessionRow : SessionRow :=
  { session_id := "s0", user_id := "u0", created_at := "2024-01-01",
    expires_at := "2024-01-01" }

def demoOpsIsolation : List StoreOp :=
  [StoreOp.saveChat ("alice") ("c1") ("T1") ("2024-01-01") ("2024-01-01") true,
   StoreOp.saveChat ("bob") ("c2") ("T2") ("2024-02-01") ("2024-02-01") false]

def demoAppends : List AppendOp :=
  [{ u := "u", cid := "c", role := "user", content := "hi", now := "t9" },
   { u := "v", cid := "c", role := "user", content := "other", now := "t3" },
   { u := "u", cid := "c", role := "assistant", content := "yo", now := "t1" }]

def demoSession : SessionState :=
  { chats := [(("c1"), { title := "New Chat", created_at := "2024-01-01", messages := [] })],
    current := some ("c1") }

def demoChatC2 : ChatRow :=
  { chat_id := "c2", user_id := "bob", title := "T2", created_at := "2024-02-01",
    is_current := 0, last_accessed := "2024-02-01" }

/-! ## Helper lemmas -/

theorem charListLE_total : ∀ as bs : List Char,
    charListLE as bs = true ∨ charListLE bs as = true := by
  intro as
  induction as with
  | nil => intro bs; left; rfl
  | cons a as ih =>
    intro bs
    cases bs with
    | nil => right; rfl
    | cons b bs =>
      simp only [charListLE]
      rcases Nat.lt_trichotomy a.toNat b.toNat with h | h | h
      · left; simp [h]
      · rcases ih bs with h2 | h2
        · left; simp [h, Nat.lt_irrefl, h2]
        · right; simp [h, Nat.lt_irrefl, h2]
      · right; simp [h]

theorem charListLE_trans :
    ∀ as bs cs : List Char, charListLE as bs = true → charListLE bs cs = true →
      charListLE as cs = true := by
  intro as
  induction as with
  | nil => intro bs cs _ _; rfl
  | cons a as ih =>
    intro bs cs h1 h2
    cases bs with
    | nil => simp [charListLE] at h1
    | cons b bs =>
      cases cs with
      | nil => simp [charListLE] at h2
      | cons c cs =>
        simp only [charListLE] at h1 h2 ⊢
        rcases Nat.lt_trichotomy a.toNat b.toNat with hab | hab | hab
        · rcases Nat.lt_trichotomy b.toNat c.toNat with hbc | hbc | hbc
          · simp [Nat.lt_trans hab hbc]
          · simp [hbc ▸ hab]
          · exfalso
            simp [hab, Nat.lt_asymm hab] at h1
            simp [hbc, Nat.lt_asymm hbc] at h2
        · rcases Nat.lt_trichotomy b.toNat c.toNat with hbc | hbc | hbc
          · simp [hab ▸ hbc]
          · have hac : a.toNat = c.toNat := hab.trans hbc
            simp [hab, Nat.lt_irrefl] at h1
            simp [hbc, Nat.lt_irrefl] at h2
            simp [hac, Nat.lt_irrefl]
            exact ih bs cs h1 h2
          · exfalso
            simp [hbc, Nat.lt_asymm hbc] at h2
        · exfalso
          simp [hab, Nat.lt_asymm hab] at h1

theorem asStrings_map_jstr : ∀ ts : List String, asStrings (ts.map JVal.jstr) = some ts := by
  intro ts
  induction ts with
  | nil => rfl
  | cons t rest ih => simp [asStrings, ih]

/-! ## C3: NDJSON join with visible separator -/

/-- C3: on a successful NDJSON response whose two done-lines carry the
output texts "A" and "B", `chat_with_bot` returns them joined by the visible
separator; in general, collected fragments are joined with the separator and
an empty collection yields the "no response" sentinel. -/
theorem chat_with_bot_ndjson_join :
    chat_with_bot (some ("tok")) (some ("http://ep")) []
        (fun _ => TransportResult.success 200 ndjsonAB)
      = ("A\n\n---\n\nB", 1)
  ∧ (∀ ts : List String, finishTexts (ts.map JVal.jstr)
      = if ts.isEmpty then noResponseMsg else String.intercalate sepJoin ts) := by
  constructor
  · decide
  · intro ts
    cases ts with
    | nil => rfl
    | cons t rest =>
      simp only [finishTexts, List.map, List.isEmpty_cons, asStrings_map_jstr]
      simp [asStrings, asStrings_map_jstr]

/-! ## C4: unconfigured gateway fails fast without touching the transport -/

/-- C4: when the endpoint or the bearer token is absent or empty,
`chat_with_bot` returns the not-configured message and the transport is
invoked zero times, for every message history and every transport. -/
theorem chat_with_bot_not_configured (token endpoint : Option String)
    (history : List ChatMsg) (transport : List PayloadMsg → TransportResult)
    (h : truthy token = false ∨ truthy endpoint = false) :
    chat_with_bot token endpoint history transport = (notConfiguredMsg, 0) := by
  unfold chat_with_bot
  rcases h with h | h <;> simp [h]

theorem chat_with_bot_not_configured_witness :
    chat_with_bot none (some ("http://ep")) [{ role := "user", content := "hi" }]
        (fun _ => TransportResult.success 200 ndjsonAB)
      = (notConfiguredMsg, 0) :=
  chat_with_bot_not_configured none (some ("http://ep")) _ _ (Or.inl rfl)

/-! ## C10: a pretty-printed single document is mis-routed to NDJSON mode -/

/-- C10: a 200 response whose body is one pretty-printed JSON document takes
the NDJSON branch because of its embedded newlines, collects nothing (each
line is not a complete JSON document, or lacks the done tag), and returns
the sentinel, even though the single-document parser would have extracted
"hello"; the single-document fallback is never consulted when the trimmed
body contains a newline. -/
theorem chat_with_bot_pretty_doc_misrouted :
    containsNewline (pyStrip prettyDocBody) = true
  ∧ processLines (pySplitlines (pyStrip prettyDocBody)) [] = Except.ok []
  ∧ singleDocTexts (pyStrip prettyDocBody) = [JVal.jstr ("hello")]
  ∧ chat_with_bot (some ("tok")) (some ("http://ep")) []
        (fun _ => TransportResult.success 200 prettyDocBody) = (noResponseMsg, 1)
  ∧ (∀ body : String, containsNewline (pyStrip body) = true →
      parse_response_body body
        = match processLines (pySplitlines (pyStrip body)) [] with
          | Except.ok ts => finishTexts ts
          | Except.error e => pyExcMsg e.2) := by
  refine ⟨by decide, by rfl, by rfl, by decide, ?_⟩
  intro body h
  unfold parse_response_body
  simp only [h, if_true]
  cases hp : processLines (pySplitlines (pyStrip body)) [] with
  | ok ts => rfl
  | error e =>
    obtain ⟨part, msg⟩ := e
    rfl

theorem chat_with_bot_pretty_doc_misrouted_witness :
    parse_response_body ndjsonAB
      = match processLines (pySplitlines (pyStrip ndjsonAB)) [] with
        | Except.ok ts => finishTexts ts
        | Except.error e => pyExcMsg e.2 :=
  chat_with_bot_pretty_doc_misrouted.2.2.2.2 ndjsonAB (by decide)

/-! ## C6: uniform authentication failure -/

/-- C6: `authenticate_user` returns the identical result
`((false, "", ""), db)` both when the username does not exist and when it
exists with a wrong password, so the two causes are indistinguishable; the
users table (hence last-login) changes only on success. -/
theorem authenticate_user_uniform_failure (hash : String → String) (db : List UserRow)
    (username password now : String) :
    (db.find? (fun r => r.username == username) = none →
      authenticate_user hash db username password now = ((false, "", ""), db))
  ∧ (∀ u, db.find? (fun r => r.username == username) = some u →
      hash password ≠ u.password_hash →
      authenticate_user hash db username password now = ((false, "", ""), db))
  ∧ ((authenticate_user hash db username password now).2 ≠ db →
      (authenticate_user hash db username password now).1.1 = true) := by
  refine ⟨?_, ?_, ?_⟩
  · intro h
    unfold authenticate_user
    rw [h]
  · intro u hu hne
    unfold authenticate_user
    rw [hu]
    simp [hne]
  · intro hne
    unfold authenticate_user at hne ⊢
    cases hfind : db.find? (fun r => r.username == username) with
    | none =>
      rw [hfind] at hne
      exact absurd rfl hne
    | some u =>
      rw [hfind] at hne
      by_cases hpw : (hash password == u.password_hash) = true
      · simp [hpw]
      · have hpw2 : (hash password == u.password_hash) = false := by
          simpa using hpw
        simp only [hpw2, Bool.false_eq_true, if_false] at hne
        exact absurd rfl hne

theorem authenticate_user_uniform_failure_witness :
    authenticate_user (fun s => s) [demoUserRow] ("alice") ("wrong") ("t9")
      = ((false, "", ""), [demoUserRow]) :=
  (authenticate_user_uniform_failure (fun s => s) [demoUserRow] ("alice") ("wrong")
    ("t9")).2.1 demoUserRow (by decide) (by decide)

/-! ## C9: sessions born expired yet accepted forever -/

/-- C9: `create_session` stores `expires_at` equal to the creation stamp,
and `validate_session` resolves a stored session id to its user no matter
what the `expires_at` column holds (it is never consulted). -/
theorem create_validate_session_no_expiry (db : List SessionRow) (uid sid now : String)
    (hfresh : ∀ r ∈ db, r.session_id ≠ sid) :
    (∃ r ∈ (create_session db uid sid now).1,
        r.session_id = sid ∧ r.user_id = uid ∧ r.expires_at = r.created_at)
  ∧ validate_session (create_session db uid sid now).1 sid = (true, uid)
  ∧ (∀ f : SessionRow → String,
      validate_session (db.map fun r => { r with expires_at := f r }) sid
        = validate_session db sid) := by
  refine ⟨?_, ?_, ?_⟩
  · exact ⟨{ session_id := sid, user_id := uid, created_at := now, expires_at := now },
      by simp [create_session], rfl, rfl, rfl⟩
  · have hnone : db.find? (fun r => r.session_id == sid) = none := by
      apply List.find?_eq_none.mpr
      intro x hx
      simpa using hfresh x hx
    simp [validate_session, create_session, List.find?_append, hnone, List.find?]
  · intro f
    clear hfresh
    induction db with
    | nil => rfl
    | cons r rest ih =>
      simp only [List.map_cons]
      unfold validate_session at ih ⊢
      by_cases h : (r.session_id == sid) = true
      · rw [List.find?_cons_of_pos _ (by simpa using h),
            List.find?_cons_of_pos _ (by exact h)]
      · rw [List.find?_cons_of_neg _ (by simpa using h),
            List.find?_cons_of_neg _ (by exact h)]
        exact ih

theorem create_validate_session_no_expiry_witness :
    validate_session (create_session [demoSessionRow] ("u1") ("s1") ("t0")).1 ("s1")
      = (true, "u1") :=
  (create_validate_session_no_expiry [demoSessionRow] ("u1") ("s1") ("t0")
    (by decide)).2.1

/-! ## C7: auto-title truncation and its trigger -/

theorem lookup_map_update (l : List (String × ChatEntry)) (k : String)
    (f : ChatEntry → ChatEntry) :
    (l.map fun p => if p.1 == k then (p.1, f p.2) else p).lookup k
      = (l.lookup k).map f := by
  induction l with
  | nil => rfl
  | cons p rest ih =>
    obtain ⟨a, b⟩ := p
    simp only [List.map_cons]
    cases hb : a == k with
    | true =>
      have hk : a = k := by simpa using hb
      subst hk
      simp only [beq_self_eq_true, if_true, List.lookup_cons_self]
      simp [List.lookup_cons, ih]
    | false =>
      have hne2 : ¬ (k = a) := fun hk => by simp [hk.symm] at hb
      have hkb : (k == a) = false := by simpa using hne2
      simp only [hb, Bool.false_eq_true, if_false, List.lookup_cons, hkb]
      exact ih

/-- C7: the auto-generated title is the first 50 characters of the first
message with "..." appended exactly when the message exceeds 50 characters
(in particular 80 "X"s give 50 "X"s plus the marker), and the chat-input
handler rewrites the title exactly when the conversation had zero
messages. -/
theorem auto_title_truncates_on_first_message (sess : SessionState) (s : Store)
    (u prompt now cid : String) (entry : ChatEntry)
    (hcur : sess.current = some cid) (hlk : sess.chats.lookup cid = some entry) :
    auto_title (String.mk (List.replicate 80 'X'))
      = String.mk (List.replicate 50 'X') ++ "..."
  ∧ (∀ m : String, m.length ≤ 50 → auto_title m = m)
  ∧ (∀ m : String, 50 < m.length → auto_title m = (m.toList.take 50).asString ++ "...")
  ∧ (handle_chat_input sess s u prompt now).1.chats.lookup cid
      = some { title := if entry.messages.isEmpty then auto_title prompt else entry.title,
               created_at := entry.created_at,
               messages := entry.messages ++ [("user", prompt)] } := by
  refine ⟨by decide, ?_, ?_, ?_⟩
  · intro m hm
    have hm2 : m.data.length ≤ 50 := hm
    have hgt : ¬ (m.length > 50) := by
      have h3 : m.length ≤ 50 := hm
      omega
    unfold auto_title
    rw [if_neg hgt]
    show (List.take 50 m.data).asString ++ "" = m
    rw [List.take_of_length_le hm2, String.append_empty]
    exact String.asString_toList m
  · intro m hm
    simp [auto_title, hm]
  · obtain ⟨t0, ca0, msgs0⟩ := entry
    cases msgs0 with
    | nil =>
      simp only [handle_chat_input, hcur, Option.getD_some, hlk, update_chat_title,
        List.length_nil, beq_self_eq_true, if_true]
      rw [lookup_map_update _ cid
            (fun e => { e with messages := e.messages ++ [("user", prompt)] }),
          lookup_map_update _ cid
            (fun e => { e with title := auto_title prompt }), hlk]
      rfl
    | cons m ms =>
      simp only [handle_chat_input, hcur, Option.getD_some, hlk, List.length_cons]
      have hz : ((ms.length + 1) == 0) = false := by simp
      simp only [hz, Bool.false_eq_true, if_false]
      rw [lookup_map_update _ cid
            (fun e => { e with messages := e.messages ++ [("user", prompt)] }), hlk]
      rfl

theorem auto_title_truncates_on_first_message_witness :
    (handle_chat_input demoSession emptyStore ("u") ("hello") ("t1")).1.chats.lookup ("c1")
      = some { title := "hello", created_at := "2024-01-01",
               messages := [("user", "hello")] } :=
  (auto_title_truncates_on_first_message demoSession emptyStore ("u") ("hello") ("t1")
    ("c1") { title := "New Chat", created_at := "2024-01-01", messages := [] }
    rfl rfl).2.2.2

/-! ## C1: set-current leaves exactly one current conversation -/

theorem setCurrent_row_flag (u cid now : String) (r : ChatRow) :
    ((markRow u cid now (unsetRow u r)).user_id == u
      && (markRow u cid now (unsetRow u r)).is_current != 0)
    = (r.chat_id == cid && r.user_id == u) := by
  unfold markRow unsetRow
  by_cases hu : r.user_id = u
  · by_cases hc : r.chat_id = cid
    · simp [hu, hc]
    · have hc2 : (r.chat_id == cid) = false := by simp [hc]
      simp [hu, hc2]
  · have hu2 : (r.user_id == u) = false := by simp [hu]
    simp [hu2]

theorem setCurrent_row_chat_id (u cid now : String) (r : ChatRow) :
    (markRow u cid now (unsetRow u r)).chat_id = r.chat_id := by
  unfold markRow unsetRow
  by_cases hu : r.user_id = u
  · by_cases hc : r.chat_id = cid
    · simp [hu, hc]
    · have hc2 : (r.chat_id == cid) = false := by simp [hc]
      simp [hu, hc2]
  · have hu2 : (r.user_id == u) = false := by simp [hu]
    simp [hu2]

theorem filter_chat_unique :
    ∀ (rows : List ChatRow) (cid u : String) (r0 : ChatRow),
      (rows.map (fun r => r.chat_id)).Nodup → r0 ∈ rows → r0.chat_id = cid →
      r0.user_id = u →
      (rows.filter fun r => r.chat_id == cid && r.user_id == u).map (fun r => r.chat_id)
        = [cid] := by
  intro rows
  induction rows with
  | nil => intro cid u r0 _ h0; exact absurd h0 (List.not_mem_nil r0)
  | cons r rest ih =>
    intro cid u r0 hnd hr0 hc hu
    rw [List.map_cons, List.nodup_cons] at hnd
    rcases List.mem_cons.mp hr0 with rfl | hmem
    · have hcond : (r0.chat_id == cid && r0.user_id == u) = true := by simp [hc, hu]
      have hrest : rest.filter (fun r => r.chat_id == cid && r.user_id == u) = [] := by
        rw [List.filter_eq_nil_iff]
        intro a ha hpa
        apply hnd.1
        have ha2 : a.chat_id = cid := by
          rcases Bool.and_eq_true_iff.mp hpa with ⟨h1, _⟩
          simpa using h1
        rw [hc, ← ha2]
        exact List.mem_map.mpr ⟨a, ha, rfl⟩
      simp [List.filter_cons, hcond, hrest, hc, hu]
    · have hne : r.chat_id ≠ cid := by
        intro heq
        apply hnd.1
        rw [heq, ← hc]
        exact List.mem_map.mpr ⟨r0, hmem, rfl⟩
      have hcond : (r.chat_id == cid && r.user_id == u) = false := by
        simp [hne]
      simp only [List.filter_cons, hcond, Bool.false_eq_true, if_false]
      exact ih cid u r0 hnd.2 hmem hc hu

theorem set_current_filter_map (u cid now : String) :
    ∀ rows : List ChatRow,
      ((((rows.map (unsetRow u)).map (markRow u cid now)).filter
          fun r => r.user_id == u && r.is_current != 0).map (fun r => r.chat_id))
      = (rows.filter fun r => r.chat_id == cid && r.user_id == u).map
          (fun r => r.chat_id) := by
  intro rows
  induction rows with
  | nil => rfl
  | cons r rest ih =>
    simp only [List.map_cons, List.filter_cons]
    rw [setCurrent_row_flag u cid now r]
    by_cases hcnd : (r.chat_id == cid && r.user_id == u) = true
    · simp only [hcnd, eq_self_iff_true, if_true, List.map_cons]
      rw [setCurrent_row_chat_id u cid now r, ih]
    · have hcnd2 : (r.chat_id == cid && r.user_id == u) = false := by simpa using hcnd
      simp only [hcnd2, Bool.false_eq_true, if_false]
      exact ih

/-- C1: after `set_current_chat_db u C`, the conversations of user `u`
flagged current are exactly the one conversation `C`, for every prior state
of the flags; the operation unsets every flag of the user and then sets the
flag of `C`. -/
theorem set_current_chat_exactly_one (s : Store) (u cid now : String)
    (hnd : (s.chats.map (fun r => r.chat_id)).Nodup)
    (r0 : ChatRow) (hr0 : r0 ∈ s.chats) (hc : r0.chat_id = cid) (hu : r0.user_id = u) :
    (((set_current_chat_db s u cid now).chats.filter
        fun r => r.user_id == u && r.is_current != 0).map (fun r => r.chat_id))
      = [cid] := by
  unfold set_current_chat_db unsetCurrentFor
  rw [set_current_filter_map u cid now s.chats]
  exact filter_chat_unique s.chats cid u r0 hnd hr0 hc hu

theorem set_current_chat_exactly_one_witness :
    (((set_current_chat_db demoStoreTwoCurrent ("u") ("c1") ("t9")).chats.filter
        fun r => r.user_id == "u" && r.is_current != 0).map (fun r => r.chat_id))
      = ["c1"] :=
  set_current_chat_exactly_one demoStoreTwoCurrent ("u") ("c1") ("t9") (by decide)
    (demoChat ("c1") ("u") ("2024-01-01") 1) (by decide) rfl rfl

/-! ## C5: append/list round trip in id order -/

theorem sorted_filter_msgs (msgs : List MsgRow)
    (h : msgs.Pairwise (fun a b => a.message_id < b.message_id)) (p : MsgRow → Bool) :
    (msgs.filter p).insertionSort msgIdR = msgs.filter p := by
  apply List.Sorted.insertionSort_eq
  exact (h.filter p).imp (fun hab => Nat.le_of_lt hab)

theorem MsgsOrdered_save (s : Store) (h : MsgsOrdered s) (u cid role content now : String) :
    MsgsOrdered (save_message_to_db s u cid role content now) := by
  obtain ⟨hlt, hpw⟩ := h
  unfold MsgsOrdered save_message_to_db
  constructor
  · intro m hm
    rcases List.mem_append.mp hm with hm | hm
    · exact Nat.lt_succ_of_lt (hlt m hm)
    · rcases List.mem_singleton.mp hm with rfl
      exact Nat.lt_succ_self _
  · rw [List.pairwise_append]
    refine ⟨hpw, List.pairwise_singleton _ _, ?_⟩
    intro a ha b hb
    rcases List.mem_singleton.mp hb with rfl
    exact hlt a ha

theorem load_after_append (s : Store) (h : MsgsOrdered s) (u2 c2 role content now u cid : String) :
    load_messages_for_chat (save_message_to_db s u2 c2 role content now) u cid
      = load_messages_for_chat s u cid
        ++ (if c2 == cid && u2 == u then [(role, content)] else []) := by
  obtain ⟨hlt, hpw⟩ := h
  unfold load_messages_for_chat save_message_to_db
  simp only [List.filter_append]
  have hsorted2 :
      ((s.msgs.filter fun m : MsgRow => m.chat_id == cid && m.user_id == u)
        ++ (([(⟨s.nextId, c2, u2, role, content, now⟩ : MsgRow)]).filter
              fun m : MsgRow => m.chat_id == cid && m.user_id == u)).Pairwise
        (fun a b : MsgRow => a.message_id < b.message_id) := by
    rw [List.pairwise_append]
    refine ⟨hpw.filter _, (List.pairwise_singleton _ _).filter _, ?_⟩
    intro a ha b hb
    have hb2 := List.mem_singleton.mp (List.mem_filter.mp hb).1
    subst hb2
    exact hlt a (List.mem_filter.mp ha).1
  have hs2 : List.Sorted msgIdR
      ((s.msgs.filter fun m : MsgRow => m.chat_id == cid && m.user_id == u)
        ++ (([(⟨s.nextId, c2, u2, role, content, now⟩ : MsgRow)]).filter
              fun m : MsgRow => m.chat_id == cid && m.user_id == u)) :=
    hsorted2.imp fun hab => Nat.le_of_lt hab
  have hs1 : List.Sorted msgIdR
      (s.msgs.filter fun m : MsgRow => m.chat_id == cid && m.user_id == u) :=
    (hpw.filter _).imp fun hab => Nat.le_of_lt hab
  rw [List.Sorted.insertionSort_eq hs2, List.Sorted.insertionSort_eq hs1,
      List.map_append]
  congr 1
  by_cases hc : (c2 == cid && u2 == u) = true
  · simp [List.filter_cons, hc]
  · have hc2 : ((c2 == cid) && (u2 == u)) = false := by simpa using hc
    simp [List.filter_cons, hc2]

/-- C5: for every starting store satisfying the auto-increment invariant and
every sequence of `save_message_to_db` calls with arbitrary wall-clock
stamps, `load_messages_for_chat` afterwards returns the prior contents
followed by exactly the appended (role, content) pairs of that conversation
and user, verbatim, in append order (ordering is by message id, not by
timestamp). -/
theorem append_then_list_messages (s : Store) (h : MsgsOrdered s)
    (ops : List AppendOp) (u cid : String) :
    load_messages_for_chat (applyAppends s ops) u cid
      = load_messages_for_chat s u cid
        ++ (ops.filter fun o => o.cid == cid && o.u == u).map
            (fun o => (o.role, o.content)) := by
  induction ops generalizing s with
  | nil => simp [applyAppends]
  | cons o rest ih =>
    have hstep : applyAppends s (o :: rest)
        = applyAppends (save_message_to_db s o.u o.cid o.role o.content o.now) rest := rfl
    rw [hstep, ih _ (MsgsOrdered_save s h o.u o.cid o.role o.content o.now),
        load_after_append s h o.u o.cid o.role o.content o.now u cid]
    by_cases hc : (o.cid == cid && o.u == u) = true
    · simp [List.filter_cons, hc]
    · have hc2 : (o.cid == cid && o.u == u) = false := by simpa using hc
      simp [List.filter_cons, hc2]

theorem append_then_list_messages_witness :
    load_messages_for_chat (applyAppends emptyStore demoAppends) ("u") ("c")
      = [("user", "hi"), ("assistant", "yo")] :=
  append_then_list_messages emptyStore (by constructor <;> simp [emptyStore])
    demoAppends ("u") ("c")

/-! ## C2: conversations never leak across users -/

theorem unsetRow_chat_id (u : String) (r : ChatRow) : (unsetRow u r).chat_id = r.chat_id := by
  unfold unsetRow; split <;> rfl

theorem unsetRow_user_id (u : String) (r : ChatRow) : (unsetRow u r).user_id = r.user_id := by
  unfold unsetRow; split <;> rfl

theorem markRow_chat_id (u cid now : String) (r : ChatRow) :
    (markRow u cid now r).chat_id = r.chat_id := by
  unfold markRow; split <;> rfl

theorem markRow_user_id (u cid now : String) (r : ChatRow) :
    (markRow u cid now r).user_id = r.user_id := by
  unfold markRow; split <;> rfl

theorem map_preserves_owner {cid u1 : String} {l : List ChatRow} {g : ChatRow → ChatRow}
    (hg1 : ∀ x, (g x).chat_id = x.chat_id) (hg2 : ∀ x, (g x).user_id = x.user_id)
    (hs : ∀ r ∈ l, r.chat_id = cid → r.user_id = u1) :
    ∀ r ∈ l.map g, r.chat_id = cid → r.user_id = u1 := by
  intro r hr hrc
  obtain ⟨x, hx, rfl⟩ := List.mem_map.mp hr
  rw [hg2 x]
  refine hs x hx ?_
  rw [← hg1 x]
  exact hrc

theorem applyOp_preserves_owner (cid u1 : String) (op : StoreOp) (s : Store)
    (hs : ∀ r ∈ s.chats, r.chat_id = cid → r.user_id = u1)
    (hop : savesChatOnlyAs cid u1 op) :
    ∀ r ∈ (applyOp s op).chats, r.chat_id = cid → r.user_id = u1 := by
  cases op with
  | saveChat u c t ca n b =>
    intro r hr hrc
    simp only [applyOp, save_chat_to_db] at hr
    rcases List.mem_append.mp hr with hr | hr
    · have hr1 := (List.mem_filter.mp hr).1
      cases b with
      | true =>
        simp only [if_true, eq_self_iff_true, unsetCurrentFor] at hr1
        exact map_preserves_owner (fun x => unsetRow_chat_id u x)
          (fun x => unsetRow_user_id u x) hs r hr1 hrc
      | false =>
        simp only [Bool.false_eq_true, if_false] at hr1
        exact hs r hr1 hrc
    · have hr2 := List.mem_singleton.mp hr
      subst hr2
      exact hop hrc
  | saveMsg u c role content now =>
    intro r hr hrc
    simp only [applyOp, save_message_to_db] at hr
    refine map_preserves_owner ?_ ?_ hs r hr hrc
    · intro x
      by_cases hx : (x.chat_id == c && x.user_id == u) = true <;> simp [hx]
    · intro x
      by_cases hx : (x.chat_id == c && x.user_id == u) = true <;> simp [hx]
  | setCurrent u c now =>
    intro r hr hrc
    simp only [applyOp, set_current_chat_db, unsetCurrentFor] at hr
    exact map_preserves_owner (fun x => markRow_chat_id u c now x)
      (fun x => markRow_user_id u c now x)
      (map_preserves_owner (fun x => unsetRow_chat_id u x)
        (fun x => unsetRow_user_id u x) hs) r hr hrc
  | deleteChat u c =>
    intro r hr hrc
    simp only [applyOp, delete_chat_from_db] at hr
    exact hs r (List.mem_filter.mp hr).1 hrc
  | clearMsgs u c =>
    intro r hr hrc
    simp only [applyOp, clear_chat_messages_db] at hr
    exact hs r hr hrc
  | clearAll u =>
    intro r hr hrc
    simp only [applyOp, clear_all_data_db] at hr
    exact hs r (List.mem_filter.mp hr).1 hrc

theorem chat_owner_invariant (cid u1 : String) :
    ∀ (ops : List StoreOp) (s : Store),
      (∀ r ∈ s.chats, r.chat_id = cid → r.user_id = u1) →
      (∀ op ∈ ops, savesChatOnlyAs cid u1 op) →
      ∀ r ∈ (applyOps s ops).chats, r.chat_id = cid → r.user_id = u1 := by
  intro ops
  induction ops with
  | nil => intro s hs _; exact hs
  | cons op rest ih =>
    intro s hs hops
    exact ih (applyOp s op)
      (applyOp_preserves_owner cid u1 op s hs (hops op (List.mem_cons_self op rest)))
      (fun op2 hop2 => hops op2 (List.mem_cons_of_mem op hop2))

theorem loaded_chats_owned (s : Store) (u : String) :
    ∀ r ∈ (load_chats_from_db s u).1, r.user_id = u := by
  intro r hr
  unfold load_chats_from_db at hr
  have h2 : r ∈ s.chats.filter fun x => x.user_id == u :=
    (List.perm_insertionSort chatDescR _).mem_iff.mp hr
  have h3 := (List.mem_filter.mp h2).2
  simpa using h3

theorem loaded_chats_mem (s : Store) (u : String) :
    ∀ r ∈ (load_chats_from_db s u).1, r ∈ s.chats := by
  intro r hr
  unfold load_chats_from_db at hr
  exact (List.mem_filter.mp ((List.perm_insertionSort chatDescR _).mem_iff.mp hr)).1

/-- C2: every row returned by `load_chats_from_db u2` is owned by `u2`, and
for every operation sequence from the empty store in which the conversation
`cid` is only ever upserted on behalf of `u1 ≠ u2`, no row of `cid` ever
appears in the listing of `u2`. -/
theorem conversations_user_isolated (ops : List StoreOp) (u1 u2 cid : String)
    (hne : u1 ≠ u2) (hops : ∀ op ∈ ops, savesChatOnlyAs cid u1 op) :
    (∀ s : Store, ∀ r ∈ (load_chats_from_db s u2).1, r.user_id = u2)
  ∧ (∀ r ∈ (load_chats_from_db (applyOps emptyStore ops) u2).1, r.chat_id ≠ cid) := by
  constructor
  · intro s r hr
    exact loaded_chats_owned s u2 r hr
  · intro r hr hcid
    have hu1 : r.user_id = u1 :=
      chat_owner_invariant cid u1 ops emptyStore
        (fun r h => absurd h (List.not_mem_nil r)) hops r
        (loaded_chats_mem _ u2 r hr) hcid
    have hu2 : r.user_id = u2 := loaded_chats_owned _ u2 r hr
    exact hne (hu1 ▸ hu2)

theorem conversations_user_isolated_witness :
    demoChatC2.user_id = "bob" ∧ demoChatC2.chat_id ≠ "c1" := by
  have hops : ∀ op ∈ demoOpsIsolation, savesChatOnlyAs ("c1") ("alice") op := by
    intro op hop
    rcases List.mem_cons.mp hop with rfl | hop
    · exact fun _ => rfl
    · rcases List.mem_cons.mp hop with rfl | hop
      · exact fun h => absurd h (by decide)
      · exact absurd hop (List.not_mem_nil op)
  have h := conversations_user_isolated demoOpsIsolation ("alice") ("bob") ("c1")
    (by decide) hops
  exact ⟨h.1 (applyOps emptyStore demoOpsIsolation) demoChatC2 (by decide),
         h.2 demoChatC2 (by decide)⟩

/-! ## C8: first activation of a user session -/

theorem charListLE_refl : ∀ as : List Char, charListLE as as = true := by
  intro as
  induction as with
  | nil => rfl
  | cons a as ih => simp [charListLE, Nat.lt_irrefl, ih]

theorem currentFromRows_foldl (rows : List ChatRow) (acc : Option String) :
    rows.foldl (fun a r => if r.is_current != 0 then some r.chat_id else a) acc
      = (((rows.filter fun x => x.is_current != 0).map (fun x => x.chat_id)).getLast?).or acc := by
  induction rows generalizing acc with
  | nil => rfl
  | cons r rest ih =>
    by_cases hr : (r.is_current != 0) = true
    · simp only [List.foldl_cons, List.filter_cons, hr, eq_self_iff_true, if_true,
        List.map_cons, List.getLast?_cons]
      rw [ih]
      cases hgl : ((rest.filter fun x => x.is_current != 0).map (fun x => x.chat_id)).getLast? with
      | none => simp [Option.or]
      | some y => simp [Option.or]
    · have hr2 : (r.is_current != 0) = false := by simpa using hr
      simp only [List.foldl_cons, List.filter_cons, hr2, Bool.false_eq_true, if_false]
      exact ih acc

theorem currentFromRows_unique (rows : List ChatRow) (cid : String)
    (h : ((rows.filter fun x => x.is_current != 0).map (fun x => x.chat_id)) = [cid]) :
    currentFromRows rows = some cid := by
  unfold currentFromRows
  rw [currentFromRows_foldl rows none, h]
  rfl

/-- C8: on first activation, a user with no stored conversations gets exactly
one fresh conversation titled "New Chat" with zero messages, marked current
and persisted; a user whose stored conversations include none marked current
gets the most recently created one selected and that choice persisted. -/
theorem first_activation_behavior (s : Store) (u newId now : String) :
    ((∀ row ∈ s.chats, row.user_id ≠ u) → (∀ m ∈ s.msgs, m.user_id ≠ u) →
      init_user_session s u newId now
        = ({ chats := [(newId, { title := "New Chat", created_at := now, messages := [] })],
             current := some newId },
           save_chat_to_db s u newId ("New Chat") now now true)
      ∧ (load_chats_from_db (init_user_session s u newId now).2 u).1.map
          (fun r => (r.chat_id, r.title, r.is_current)) = [(newId, "New Chat", 1)]
      ∧ (load_chats_from_db (init_user_session s u newId now).2 u).2 = some newId
      ∧ load_messages_for_chat (init_user_session s u newId now).2 u newId = [])
  ∧ (∀ r rest, (load_chats_from_db s u).1 = r :: rest →
      (load_chats_from_db s u).2 = none →
      (s.chats.map (fun x => x.chat_id)).Nodup →
      (init_user_session s u newId now).1.current = some r.chat_id
      ∧ (∀ q ∈ (load_chats_from_db s u).1, strLE q.created_at r.created_at = true)
      ∧ (load_chats_from_db (init_user_session s u newId now).2 u).2 = some r.chat_id) := by
  constructor
  · intro huser hmsg
    have hfilter : (s.chats.filter fun x => x.user_id == u) = [] := by
      rw [List.filter_eq_nil_iff]
      intro a ha hpa
      exact huser a ha (by simpa using hpa)
    have hload : load_chats_from_db s u = ([], none) := by
      unfold load_chats_from_db
      rw [hfilter]
      rfl
    have hinit : init_user_session s u newId now
        = ({ chats := [(newId, { title := "New Chat", created_at := now, messages := [] })],
             current := some newId },
           save_chat_to_db s u newId ("New Chat") now now true) := by
      simp only [init_user_session, hload]
    have hfilter2 : ((save_chat_to_db s u newId ("New Chat") now now true).chats.filter
        fun x => x.user_id == u)
          = [{ chat_id := newId, user_id := u, title := "New Chat", created_at := now,
               is_current := 1, last_accessed := now }] := by
      unfold save_chat_to_db unsetCurrentFor
      simp only [eq_self_iff_true, if_true]
      rw [List.filter_append]
      have h1 : (((s.chats.map (unsetRow u)).filter fun x => x.chat_id != newId).filter
          fun x => x.user_id == u) = [] := by
        rw [List.filter_eq_nil_iff]
        intro a ha hpa
        obtain ⟨x, hx, rfl⟩ := List.mem_map.mp (List.mem_filter.mp ha).1
        rw [unsetRow_user_id] at hpa
        exact huser x hx (by simpa using hpa)
      rw [h1]
      simp [List.filter_cons]
    have hL : (load_chats_from_db (save_chat_to_db s u newId ("New Chat") now now true) u).1
        = [{ chat_id := newId, user_id := u, title := "New Chat", created_at := now,
             is_current := 1, last_accessed := now }] := by
      unfold load_chats_from_db
      rw [hfilter2]
      rfl
    have hmfilter : ((save_chat_to_db s u newId ("New Chat") now now true).msgs.filter
        fun m => m.chat_id == newId && m.user_id == u) = [] := by
      rw [List.filter_eq_nil_iff]
      intro a ha hpa
      rcases Bool.and_eq_true_iff.mp hpa with ⟨_, h2⟩
      exact hmsg a ha (by simpa using h2)
    refine ⟨hinit, ?_, ?_, ?_⟩
    · rw [hinit, hL]
      rfl
    · rw [hinit]
      unfold load_chats_from_db
      rw [hfilter2]
      rfl
    · rw [hinit]
      unfold load_messages_for_chat
      rw [hmfilter]
      rfl
  · intro r rest hrows hnone hnd
    have hrmem : r ∈ (load_chats_from_db s u).1 := by
      rw [hrows]
      exact List.mem_cons_self r rest
    have hrs : r ∈ s.chats := loaded_chats_mem s u r hrmem
    have hru : r.user_id = u := loaded_chats_owned s u r hrmem
    have hcur : (init_user_session s u newId now).1.current = some r.chat_id := by
      simp only [init_user_session, hrows, hnone]
    have hs2 : (init_user_session s u newId now).2 = set_current_chat_db s u r.chat_id now := by
      simp only [init_user_session, hrows, hnone]
    refine ⟨hcur, ?_, ?_⟩
    · haveI : IsTotal ChatRow chatDescR :=
        ⟨fun a b => charListLE_total b.created_at.data a.created_at.data⟩
      haveI : IsTrans ChatRow chatDescR :=
        ⟨fun a b c hab hbc =>
          charListLE_trans c.created_at.data b.created_at.data a.created_at.data hbc hab⟩
      have hsorted : List.Sorted chatDescR ((load_chats_from_db s u).1) := by
        unfold load_chats_from_db
        exact List.sorted_insertionSort chatDescR _
      rw [hrows] at hsorted
      intro q hq
      rw [hrows] at hq
      rcases List.mem_cons.mp hq with rfl | hq2
      · exact charListLE_refl q.created_at.data
      · exact List.rel_of_sorted_cons hsorted q hq2
    · rw [hs2]
      have hexact : (((set_current_chat_db s u r.chat_id now).chats.filter
          fun x => x.user_id == u && x.is_current != 0).map (fun x => x.chat_id))
            = [r.chat_id] := by
        unfold set_current_chat_db unsetCurrentFor
        rw [set_current_filter_map u r.chat_id now s.chats]
        exact filter_chat_unique s.chats r.chat_id u r hnd hrs rfl hru
      show currentFromRows
          (((set_current_chat_db s u r.chat_id now).chats.filter
            fun x => x.user_id == u).insertionSort chatDescR) = some r.chat_id
      apply currentFromRows_unique
      have hperm : List.Perm
          ((((set_current_chat_db s u r.chat_id now).chats.filter
            (fun x => x.user_id == u)).insertionSort chatDescR).filter
              (fun x => x.is_current != 0))
          ((((set_current_chat_db s u r.chat_id now).chats.filter
            (fun x => x.user_id == u))).filter (fun x => x.is_current != 0)) :=
        (List.perm_insertionSort chatDescR _).filter _
      have hff : ((((set_current_chat_db s u r.chat_id now).chats.filter
            fun x => x.user_id == u).filter fun x => x.is_current != 0))
          = (set_current_chat_db s u r.chat_id now).chats.filter
              fun x => x.user_id == u && x.is_current != 0 := by
        rw [List.filter_filter]
        exact List.filter_congr fun a _ => Bool.and_comm _ _
      have hperm2 : List.Perm
          (((((set_current_chat_db s u r.chat_id now).chats.filter
            (fun x => x.user_id == u)).insertionSort chatDescR).filter
              (fun x => x.is_current != 0)).map (fun x => x.chat_id))
          [r.chat_id] := by
        rw [← hexact, ← hff]
        exact hperm.map _
      exact List.perm_singleton.mp hperm2

theorem first_activation_behavior_witness :
    init_user_session emptyStore ("u") ("nid") ("t0")
      = ({ chats := [(("nid"), { title := "New Chat", created_at := "t0", messages := [] })],
           current := some ("nid") },
         save_chat_to_db emptyStore ("u") ("nid") ("New Chat") ("t0") ("t0") true)
  ∧ (init_user_session demoStoreNoCurrent ("u") ("nid") ("t9")).1.current = some ("c2") := by
  refine ⟨((first_activation_behavior emptyStore ("u") ("nid") ("t0")).1
      (by simp [emptyStore]) (by simp [emptyStore])).1, ?_⟩
  have h := (first_activation_behavior demoStoreNoCurrent ("u") ("nid") ("t9")).2
    (demoChat ("c2") ("u") ("2024-02-01") 0) [demoChat ("c1") ("u") ("2024-01-01") 0]
    (by decide) (by decide) (by decide)
  exact h.1
